import Mathlib

/-!
Verification development for the job-tracking dashboard in `src/src/App.tsx`:
shallow embedding of the match scorer, salary extraction, view-engine
filtering/sorting, digest generation, status store and saved set, together
with theorems settling the specification claims.

JavaScript strings are modelled as lists of characters (`Str`), so that all
string operations are executable by kernel reduction.
-/

/-- JavaScript strings, modelled as lists of characters. A Lean string
literal `s` is injected as `s.data`. -/
abbrev Str := List Char

/-- `String.prototype.toLowerCase`, restricted to the per-character lowering
relevant for the catalog's ASCII text. -/
def strToLower (s : Str) : Str := s.map Char.toLower

/-- `String.prototype.trim`: strip whitespace from both ends. -/
def strTrim (s : Str) : Str :=
  ((s.dropWhile Char.isWhitespace).reverse.dropWhile Char.isWhitespace).reverse

/-- Whether `pat` is a prefix of `s` (helper for substring search). -/
def strStartsWith : Str → Str → Bool
  | _, [] => true
  | [], _ :: _ => false
  | c :: s, d :: p => c == d && strStartsWith s p

/-- `String.prototype.includes`: `strContains s pat` is true when `pat`
occurs contiguously inside `s`. -/
def strContains : Str → Str → Bool
  | [], pat => strStartsWith [] pat
  | c :: t, pat => strStartsWith (c :: t) pat || strContains t pat

/-- `splitCommaSeparated` from App.tsx: split on commas, trim and lower-case
each token, drop empty tokens. -/
def splitCommaSeparated (value : Str) : List Str :=
  ((value.splitOn ',').map (fun token => strToLower (strTrim token))).filter
    (fun token => !token.isEmpty)

/-- A job record, as in `src/data/jobs` and consumed by App.tsx. The
`mode`, `experience` and `source` enums are string-valued in the source. -/
structure Job where
  id : Nat
  title : Str
  company : Str
  location : Str
  mode : Str
  experience : Str
  salaryRange : Str
  source : Str
  skills : List Str
  description : Str
  postedDaysAgo : Nat
  applyUrl : Str
deriving DecidableEq

/-- The `Preferences` record of App.tsx. -/
structure Preferences where
  roleKeywords : Str
  preferredLocations : List Str
  preferredModes : List Str
  experienceLevel : Str
  skills : Str
  minMatchScore : Nat
deriving DecidableEq

/-- `defaultPreferences` from App.tsx. -/
def defaultPreferences : Preferences :=
  { roleKeywords := []
    preferredLocations := []
    preferredModes := []
    experienceLevel := []
    skills := []
    minMatchScore := 40 }

/-- `computeMatchScore` from App.tsx, lines 49-100: additive point scheme,
sequentially accumulated, clamped to 100 at the end. -/
def computeMatchScore (job : Job) (preferences : Preferences) : Nat :=
  let roleKeywords := splitCommaSeparated preferences.roleKeywords
  let prefSkills := splitCommaSeparated preferences.skills
  let titleLower := strToLower job.title
  let descriptionLower := strToLower job.description
  let s0 : Nat := 0
  let s1 :=
    if 0 < roleKeywords.length then
      if roleKeywords.any (fun kw => strContains titleLower kw) then s0 + 25 else s0
    else s0
  let s2 :=
    if 0 < roleKeywords.length then
      if roleKeywords.any (fun kw => strContains descriptionLower kw) then s1 + 15 else s1
    else s1
  let s3 :=
    if 0 < preferences.preferredLocations.length then
      if preferences.preferredLocations.contains job.location then s2 + 15 else s2
    else s2
  let s4 :=
    if 0 < preferences.preferredModes.length then
      if preferences.preferredModes.contains job.mode then s3 + 10 else s3
    else s3
  let s5 :=
    if preferences.experienceLevel ≠ [] ∧ preferences.experienceLevel = job.experience then
      s4 + 10
    else s4
  let s6 :=
    if 0 < prefSkills.length then
      if (job.skills.map strToLower).any (fun skill => prefSkills.contains skill) then
        s5 + 15
      else s5
    else s5
  let s7 := if job.postedDaysAgo ≤ 2 then s6 + 5 else s6
  let s8 := if job.source = "LinkedIn".data then s7 + 5 else s7
  min s8 100

/-- Conversion of a run of decimal digits to a number (`Number.parseInt`
on a digit-only string). -/
def digitsToNat (ds : Str) : Nat :=
  ds.foldl (fun acc c => acc * 10 + (c.toNat - 48)) 0

/-- `extractSalaryValue` from App.tsx, lines 102-113: first run of decimal
digits (`/(\d+)/`), 0 when none; then the "lpa" / "k" unit multipliers
looked up case-insensitively in the whole text. -/
def extractSalaryValue (salaryRange : Str) : Nat :=
  let digits := (salaryRange.dropWhile (fun c => !c.isDigit)).takeWhile Char.isDigit
  if digits.isEmpty then 0
  else
    let value := digitsToNat digits
    let lower := strToLower salaryRange
    if strContains lower "lpa".data then value * 100000
    else if strContains lower "k".data then value * 1000
    else value

example : extractSalaryValue "12k".data = 12000 := by decide
example : extractSalaryValue "10 LPA".data = 1000000 := by decide
example : extractSalaryValue "no digits".data = 0 := by decide
example : splitCommaSeparated " React, Node ,".data = ["react".data, "node".data] := by decide
example : strContains "React Developer".data "eac".data = true := by decide
example : strContains "React".data "xyz".data = false := by decide

/-- The eight §4.1 scoring criteria of `computeMatchScore`, as booleans:
title keyword, description keyword, location, mode, experience, skills,
recency bonus, premium-source bonus. -/
structure Crit where
  title : Bool
  descr : Bool
  loc : Bool
  mode : Bool
  exp : Bool
  skills : Bool
  recent : Bool
  src : Bool
deriving DecidableEq

/-- Which criteria a (job, preferences) pair satisfies, read off the guard
conditions of `computeMatchScore`. -/
def crits (job : Job) (p : Preferences) : Crit :=
  let roleKeywords := splitCommaSeparated p.roleKeywords
  let prefSkills := splitCommaSeparated p.skills
  { title := decide (0 < roleKeywords.length ∧
      roleKeywords.any (fun kw => strContains (strToLower job.title) kw) = true)
    descr := decide (0 < roleKeywords.length ∧
      roleKeywords.any (fun kw => strContains (strToLower job.description) kw) = true)
    loc := decide (0 < p.preferredLocations.length ∧
      p.preferredLocations.contains job.location = true)
    mode := decide (0 < p.preferredModes.length ∧
      p.preferredModes.contains job.mode = true)
    exp := decide (p.experienceLevel ≠ [] ∧ p.experienceLevel = job.experience)
    skills := decide (0 < prefSkills.length ∧
      (job.skills.map strToLower).any (fun skill => prefSkills.contains skill) = true)
    recent := decide (job.postedDaysAgo ≤ 2)
    src := decide (job.source = "LinkedIn".data) }

/-- Pointwise implication of satisfied criteria: every criterion satisfied
on the left is satisfied on the right. -/
def Crit.le (c d : Crit) : Prop :=
  (c.title = true → d.title = true) ∧
  (c.descr = true → d.descr = true) ∧
  (c.loc = true → d.loc = true) ∧
  (c.mode = true → d.mode = true) ∧
  (c.exp = true → d.exp = true) ∧
  (c.skills = true → d.skills = true) ∧
  (c.recent = true → d.recent = true) ∧
  (c.src = true → d.src = true)

instance (c d : Crit) : Decidable (Crit.le c d) := by
  unfold Crit.le; infer_instance

lemma stepIf_mono {c d : Prop} [Decidable c] [Decidable d] {w s t : Nat}
    (himp : c → d) (hs : s ≤ t) :
    (if c then s + w else s) ≤ (if d then t + w else t) := by
  by_cases hc : c
  · rw [if_pos hc, if_pos (himp hc)]; omega
  · rw [if_neg hc]
    by_cases hd : d
    · rw [if_pos hd]; omega
    · rw [if_neg hd]; exact hs

lemma stepIf2_mono {g c g' c' : Prop}
    [Decidable g] [Decidable c] [Decidable g'] [Decidable c'] {w s t : Nat}
    (himp : g ∧ c → g' ∧ c') (hs : s ≤ t) :
    (if g then if c then s + w else s else s) ≤
      (if g' then if c' then t + w else t else t) := by
  by_cases hg : g <;> by_cases hc : c <;> by_cases hg' : g' <;> by_cases hc' : c' <;>
    simp_all <;> omega

/-- C1: for every job and preferences, the match score is a natural number
and is at most 100; hence it is an integer in [0, 100]. -/
theorem computeMatchScore_bounds (job : Job) (preferences : Preferences) :
    0 ≤ computeMatchScore job preferences ∧ computeMatchScore job preferences ≤ 100 :=
  ⟨Nat.zero_le _, Nat.min_le_right _ _⟩

/-- C2: the match score is monotone in the set of satisfied §4.1 criteria —
whenever every criterion satisfied under `p` is still satisfied under `q`
(in particular when exactly one extra criterion becomes satisfied and the
rest are unchanged), the score does not decrease. -/
theorem computeMatchScore_mono (job : Job) (p q : Preferences)
    (h : Crit.le (crits job p) (crits job q)) :
    computeMatchScore job p ≤ computeMatchScore job q := by
  obtain ⟨h1, h2, h3, h4, h5, h6, h7, h8⟩ := h
  simp only [crits, decide_eq_true_eq] at h1 h2 h3 h4 h5 h6 h7 h8
  simp only [computeMatchScore]
  refine min_le_min ?_ le_rfl
  refine stepIf_mono h8 ?_
  refine stepIf_mono h7 ?_
  refine stepIf2_mono h6 ?_
  refine stepIf_mono h5 ?_
  refine stepIf2_mono h4 ?_
  refine stepIf2_mono h3 ?_
  refine stepIf2_mono h2 ?_
  refine stepIf2_mono h1 ?_
  exact le_rfl

/-- A concrete job used by witnesses. -/
def jobReact : Job :=
  { id := 1
    title := "React Developer".data
    company := "Acme".data
    location := "Bengaluru".data
    mode := "Remote".data
    experience := "1-3".data
    salaryRange := "12 LPA".data
    source := "LinkedIn".data
    skills := ["React".data, "TypeScript".data]
    description := "Build delightful interfaces with React.".data
    postedDaysAgo := 1
    applyUrl := "https://example.com/react".data }

/-- Preferences satisfying the role-keyword criteria for `jobReact`. -/
def prefsReact : Preferences :=
  { roleKeywords := "react".data
    preferredLocations := []
    preferredModes := []
    experienceLevel := []
    skills := []
    minMatchScore := 40 }

/-- Witness for C2: `defaultPreferences` satisfies no preference criterion,
`prefsReact` additionally satisfies the title and description criteria, and
the score indeed does not decrease. -/
theorem computeMatchScore_mono_witness :
    Crit.le (crits jobReact defaultPreferences) (crits jobReact prefsReact) ∧
    computeMatchScore jobReact defaultPreferences ≤ computeMatchScore jobReact prefsReact :=
  ⟨by decide, computeMatchScore_mono jobReact defaultPreferences prefsReact (by decide)⟩

/-- Application status of a job (`JobStatus` in App.tsx). -/
inductive JobStatus where
  | notApplied
  | applied
  | rejected
  | selected
deriving DecidableEq

/-- Per-job status record (`JobStatusRecord` in App.tsx). -/
structure JobStatusRecord where
  status : JobStatus
  updatedAt : Str
deriving DecidableEq

/-- The persisted status store: job id keyed records
(`jobStatuses : Record<number, JobStatusRecord>`). -/
abbrev StatusStore := List (Nat × JobStatusRecord)

/-- `jobStatuses[job.id]?.status ?? 'Not Applied'` — the reported status of
a job, defaulting to Not Applied when no record is stored. -/
def statusOf (jobStatuses : StatusStore) (id : Nat) : JobStatus :=
  match jobStatuses.lookup id with
  | some record => record.status
  | none => JobStatus.notApplied

/-- Sort keys of the dashboard (`Filters['sort']`). -/
inductive SortKey where
  | latest
  | matchScore
  | salary
deriving DecidableEq

/-- The dashboard filter configuration (`Filters` in App.tsx); the empty
string means a filter is unset, `status = none` models `status: ''`. -/
structure Filters where
  keyword : Str
  location : Str
  mode : Str
  experience : Str
  source : Str
  sort : SortKey
  status : Option JobStatus
deriving DecidableEq

/-- The initial dashboard filter state: no filters active, sort latest. -/
def emptyFilters : Filters :=
  { keyword := []
    location := []
    mode := []
    experience := []
    source := []
    sort := SortKey.latest
    status := none }

/-- `hasPreferences` from App.tsx, lines 1269-1277: the preferences are
non-default in some field other than the threshold. -/
def hasPreferences (p : Preferences) : Bool :=
  !(strTrim p.roleKeywords).isEmpty ||
    !(strTrim p.skills).isEmpty ||
    decide (0 < p.preferredLocations.length) ||
    decide (0 < p.preferredModes.length) ||
    !p.experienceLevel.isEmpty

/-- The filter phase of `filteredJobs` (App.tsx lines 452-486): each set
filter narrows the running result list in turn. -/
def applyFilters (filters : Filters) (jobStatuses : StatusStore)
    (showOnlyMatches : Bool) (preferences : Preferences)
    (jobsWithScores : List (Job × Nat)) : List (Job × Nat) :=
  let r0 := jobsWithScores
  let r1 :=
    if strTrim filters.keyword ≠ [] then
      let q := strToLower filters.keyword
      r0.filter (fun js =>
        strContains (strToLower js.1.title) q || strContains (strToLower js.1.company) q)
    else r0
  let r2 :=
    if filters.location ≠ [] then
      r1.filter (fun js => js.1.location == filters.location)
    else r1
  let r3 :=
    if filters.mode ≠ [] then
      r2.filter (fun js => js.1.mode == filters.mode)
    else r2
  let r4 :=
    if filters.experience ≠ [] then
      r3.filter (fun js => js.1.experience == filters.experience)
    else r3
  let r5 :=
    if filters.source ≠ [] then
      r4.filter (fun js => js.1.source == filters.source)
    else r4
  let r6 :=
    match filters.status with
    | some st => r5.filter (fun js => statusOf jobStatuses js.1.id == st)
    | none => r5
  let r7 :=
    if showOnlyMatches && hasPreferences preferences then
      r6.filter (fun js => preferences.minMatchScore ≤ js.2)
    else r6
  r7

/-- The boolean "a is sorted no later than b" relation modelling the JS
comparator of `filteredJobs` under a stable sort. -/
def sortComparatorLe (sort : SortKey) (a b : Job × Nat) : Bool :=
  match sort with
  | SortKey.matchScore => decide (b.2 ≤ a.2)
  | SortKey.salary =>
      decide (extractSalaryValue b.1.salaryRange ≤ extractSalaryValue a.1.salaryRange)
  | SortKey.latest => decide (a.1.postedDaysAgo ≤ b.1.postedDaysAgo)

/-- `jobsWithScores` from App.tsx, lines 443-450. -/
def jobsWithScores (jobs : List Job) (preferences : Preferences) : List (Job × Nat) :=
  jobs.map (fun job => (job, computeMatchScore job preferences))

/-- `filteredJobs` from App.tsx, lines 452-501: the filter phase followed by
the stable sort on the configured key. -/
def filteredJobs (jobs : List Job) (filters : Filters) (jobStatuses : StatusStore)
    (showOnlyMatches : Bool) (preferences : Preferences) : List (Job × Nat) :=
  (applyFilters filters jobStatuses showOnlyMatches preferences
      (jobsWithScores jobs preferences)).mergeSort
    (sortComparatorLe filters.sort)

/-- The spec's §4.3 description of when an entry is retained: every set
filter's predicate holds (unset filters are skipped). -/
def RetainSpec (filters : Filters) (jobStatuses : StatusStore)
    (showOnlyMatches : Bool) (preferences : Preferences) (js : Job × Nat) : Prop :=
  (strTrim filters.keyword ≠ [] →
    (strContains (strToLower js.1.title) (strToLower filters.keyword) ||
      strContains (strToLower js.1.company) (strToLower filters.keyword)) = true) ∧
  (filters.location ≠ [] → js.1.location = filters.location) ∧
  (filters.mode ≠ [] → js.1.mode = filters.mode) ∧
  (filters.experience ≠ [] → js.1.experience = filters.experience) ∧
  (filters.source ≠ [] → js.1.source = filters.source) ∧
  (∀ st, filters.status = some st → statusOf jobStatuses js.1.id = st) ∧
  (showOnlyMatches = true ∧ hasPreferences preferences = true →
    preferences.minMatchScore ≤ js.2)

lemma mem_filterStage {α : Type} {c : Prop} [Decidable c] {p : α → Bool}
    {l : List α} {e : α} :
    (e ∈ if c then l.filter p else l) ↔ e ∈ l ∧ (c → p e = true) := by
  by_cases h : c <;> simp [h, List.mem_filter]

/-- Membership characterization of the filter phase: an entry survives all
the sequential filters exactly when it is in the input and satisfies every
set filter's predicate. -/
lemma mem_applyFilters {filters : Filters} {jobStatuses : StatusStore}
    {showOnlyMatches : Bool} {preferences : Preferences}
    {l : List (Job × Nat)} {e : Job × Nat} :
    e ∈ applyFilters filters jobStatuses showOnlyMatches preferences l ↔
      e ∈ l ∧ RetainSpec filters jobStatuses showOnlyMatches preferences e := by
  simp only [applyFilters, RetainSpec]
  cases hst : filters.status with
  | none =>
      simp only [mem_filterStage, hst]
      constructor
      · rintro ⟨⟨⟨⟨⟨⟨h0, hkw⟩, hloc⟩, hmode⟩, hexp⟩, hsrc⟩, hthr⟩
        refine ⟨h0, ?_, ?_, ?_, ?_, ?_, ?_, ?_⟩
        · intro h; simpa using hkw h
        · intro h; simpa using hloc h
        · intro h; simpa using hmode h
        · intro h; simpa using hexp h
        · intro h; simpa using hsrc h
        · intro st hst'; cases hst'
        · rintro ⟨hs, hp⟩
          simpa using hthr (by simp [hs, hp])
      · rintro ⟨h0, hkw, hloc, hmode, hexp, hsrc, _, hthr⟩
        refine ⟨⟨⟨⟨⟨⟨h0, ?_⟩, ?_⟩, ?_⟩, ?_⟩, ?_⟩, ?_⟩
        · intro h; simpa using hkw h
        · intro h; simpa using hloc h
        · intro h; simpa using hmode h
        · intro h; simpa using hexp h
        · intro h; simpa using hsrc h
        · intro h
          rcases Bool.and_eq_true_iff.mp h with ⟨hs, hp⟩
          simpa using hthr ⟨hs, hp⟩
  | some st =>
      simp only [mem_filterStage, hst, List.mem_filter]
      constructor
      · rintro ⟨⟨⟨⟨⟨⟨⟨h0, hkw⟩, hloc⟩, hmode⟩, hexp⟩, hsrc⟩, hstatus⟩, hthr⟩
        refine ⟨h0, ?_, ?_, ?_, ?_, ?_, ?_, ?_⟩
        · intro h; simpa using hkw h
        · intro h; simpa using hloc h
        · intro h; simpa using hmode h
        · intro h; simpa using hexp h
        · intro h; simpa using hsrc h
        · intro st' hst'
          injection hst' with hst''
          subst hst''
          simpa using hstatus
        · rintro ⟨hs, hp⟩
          simpa using hthr (by simp [hs, hp])
      · rintro ⟨h0, hkw, hloc, hmode, hexp, hsrc, hstatus, hthr⟩
        refine ⟨⟨⟨⟨⟨⟨⟨h0, ?_⟩, ?_⟩, ?_⟩, ?_⟩, ?_⟩, ?_⟩, ?_⟩
        · intro h; simpa using hkw h
        · intro h; simpa using hloc h
        · intro h; simpa using hmode h
        · intro h; simpa using hexp h
        · intro h; simpa using hsrc h
        · simpa using hstatus st rfl
        · intro h
          rcases Bool.and_eq_true_iff.mp h with ⟨hs, hp⟩
          simpa using hthr ⟨hs, hp⟩

/-- C4: view-engine filtering is conjunctive — an entry of the scored
catalog is retained exactly when it satisfies every set filter's predicate,
and the result of setting location and mode together is the intersection of
the single-filter results. -/
theorem filtering_conjunctive (jobs : List Job) (filters : Filters)
    (jobStatuses : StatusStore) (som : Bool) (preferences : Preferences)
    (e : Job × Nat) :
    (e ∈ filteredJobs jobs filters jobStatuses som preferences ↔
      e ∈ jobsWithScores jobs preferences ∧
        RetainSpec filters jobStatuses som preferences e) ∧
    (∀ (X Y : Str) (l : List (Job × Nat)),
      e ∈ applyFilters { emptyFilters with location := X, mode := Y }
          jobStatuses som preferences l ↔
        (e ∈ applyFilters { emptyFilters with location := X }
            jobStatuses som preferences l ∧
          e ∈ applyFilters { emptyFilters with mode := Y }
            jobStatuses som preferences l)) := by
  constructor
  · rw [filteredJobs, List.mem_mergeSort, mem_applyFilters]
  · intro X Y l
    simp only [mem_applyFilters, RetainSpec, emptyFilters]
    simp only [strTrim, List.dropWhile_nil, List.reverse_nil, ne_eq,
      not_true_eq_false, false_implies, true_and, reduceCtorEq]
    tauto

/-- C8: a job with no record in the status store reports status Not Applied,
and filtering by status Not Applied retains it. -/
theorem status_default (jobStatuses : StatusStore) (job : Job) (score : Nat)
    (l : List (Job × Nat)) (preferences : Preferences)
    (h : jobStatuses.lookup job.id = none) (hmem : (job, score) ∈ l) :
    statusOf jobStatuses job.id = JobStatus.notApplied ∧
    (job, score) ∈ applyFilters { emptyFilters with status := some JobStatus.notApplied }
        jobStatuses false preferences l := by
  have hstat : statusOf jobStatuses job.id = JobStatus.notApplied := by
    simp [statusOf, h]
  refine ⟨hstat, ?_⟩
  rw [mem_applyFilters]
  refine ⟨hmem, ?_⟩
  simp only [RetainSpec, emptyFilters]
  simp only [strTrim, List.dropWhile_nil, List.reverse_nil, ne_eq,
    not_true_eq_false, false_implies, true_and, reduceCtorEq]
  constructor
  · intro st hst
    injection hst with hst'
    subst hst'
    exact hstat
  · rintro ⟨hfalse, _⟩
    cases hfalse

/-- Witness for C8 at a concrete store, job and list. -/
theorem status_default_witness :
    (([] : StatusStore).lookup jobReact.id = none ∧
      (jobReact, 35) ∈ [(jobReact, 35)]) ∧
    (statusOf [] jobReact.id = JobStatus.notApplied ∧
      (jobReact, 35) ∈ applyFilters { emptyFilters with status := some JobStatus.notApplied }
          [] false defaultPreferences [(jobReact, 35)]) :=
  ⟨⟨by decide, by decide⟩,
    status_default [] jobReact 35 [(jobReact, 35)] defaultPreferences (by decide) (by decide)⟩

/-- C9: the "only above threshold" filter is gated on the toggle together
with non-default preferences; `hasPreferences` ignores the threshold value,
the stage is inactive when the toggle is off or preferences are default, and
when active it retains exactly the entries scoring at least the threshold. -/
theorem threshold_gating (p : Preferences) (n : Nat) (jobStatuses : StatusStore)
    (l : List (Job × Nat)) (e : Job × Nat) :
    hasPreferences { p with minMatchScore := n } = hasPreferences p ∧
    applyFilters emptyFilters jobStatuses false p l = l ∧
    (hasPreferences p = false → applyFilters emptyFilters jobStatuses true p l = l) ∧
    (hasPreferences p = true →
      (e ∈ applyFilters emptyFilters jobStatuses true p l ↔
        e ∈ l ∧ p.minMatchScore ≤ e.2)) := by
  refine ⟨rfl, ?_, ?_, ?_⟩
  · simp [applyFilters, emptyFilters, strTrim]
  · intro h
    simp [applyFilters, emptyFilters, strTrim, h]
  · intro h
    simp [applyFilters, emptyFilters, strTrim, h, List.mem_filter]

/-- Witness for C9: with non-default preferences and the toggle on, an entry
scoring above the threshold is retained. -/
theorem threshold_gating_witness :
    hasPreferences prefsReact = true ∧
    ((jobReact, 50) ∈ applyFilters emptyFilters [] true prefsReact [(jobReact, 50)] ↔
      (jobReact, 50) ∈ [(jobReact, 50)] ∧ prefsReact.minMatchScore ≤ 50) :=
  ⟨by decide,
    (threshold_gating prefsReact 0 [] [(jobReact, 50)] (jobReact, 50)).2.2.2 (by decide)⟩

/-- A persisted digest entry (`DigestItem` in App.tsx): a (job id, score)
pair. -/
structure DigestItem where
  jobId : Nat
  score : Nat
deriving DecidableEq

/-- "a sorts no later than b" for the digest comparator of App.tsx lines
865-868: descending score, ties broken by ascending days-since-posted. -/
def digestLe (a b : Job × Nat) : Bool :=
  if b.2 ≠ a.2 then decide (b.2 ≤ a.2)
  else decide (a.1.postedDaysAgo ≤ b.1.postedDaysAgo)

lemma digestLe_trans :
    ∀ a b c : Job × Nat, digestLe a b = true → digestLe b c = true →
      digestLe a c = true := by
  intro a b c hab hbc
  simp only [digestLe, ne_eq] at hab hbc ⊢
  split_ifs at hab hbc ⊢ <;>
    (try simp only [decide_eq_true_eq] at hab hbc ⊢) <;> omega

lemma digestLe_total :
    ∀ a b : Job × Nat, (digestLe a b || digestLe b a) = true := by
  intro a b
  simp only [digestLe, ne_eq]
  split_ifs <;> simp only [Bool.or_eq_true, decide_eq_true_eq] <;> omega

/-- The fresh-computation path of `generateDigest` (App.tsx lines 848-876):
score the whole catalog, keep scores above 0, sort by the digest comparator,
take the first 10 and project to (job id, score) pairs. -/
def generateFreshItems (jobs : List Job) (preferences : Preferences) : List DigestItem :=
  let jws := jobs.map (fun job => (job, computeMatchScore job preferences))
  let matching := jws.filter (fun js => 0 < js.2)
  if matching.length = 0 then []
  else
    ((matching.mergeSort digestLe).take 10).map
      (fun js => { jobId := js.1.id, score := js.2 })

/-- `generateDigest` from App.tsx lines 834-882, as a function from the
persisted snapshot under today's key to (digest exposed by this call, store
afterwards); `none` in the first component models the early return that
leaves the page state untouched, `none` as a store models an absent key. -/
def generateDigest (preferences : Preferences) (jobs : List Job)
    (store : Option (List DigestItem)) :
    Option (List DigestItem) × Option (List DigestItem) :=
  if hasPreferences preferences = false then (none, store)
  else
    match store with
    | some items => (some items, store)
    | none =>
      let items := generateFreshItems jobs preferences
      (some items, some items)

/-- What C5 asserts of a fresh generation: the computed items are persisted
and exposed, they are the 10-truncation of the comparator-sorted list of
positively scored catalog entries, that list is sorted by the comparator and
is a permutation of the qualifying entries, at most 10 items result, and
every item is a positively scored catalog job with its score. -/
def DigestFreshSpec (jobs : List Job) (preferences : Preferences) : Prop :=
  let matching :=
    (jobs.map (fun job => (job, computeMatchScore job preferences))).filter
      (fun js => 0 < js.2)
  let sorted := matching.mergeSort digestLe
  let items := generateFreshItems jobs preferences
  generateDigest preferences jobs none = (some items, some items) ∧
  items = (sorted.take 10).map (fun js => { jobId := js.1.id, score := js.2 }) ∧
  List.Pairwise (fun a b => digestLe a b = true) sorted ∧
  sorted.Perm matching ∧
  items.length ≤ 10 ∧
  ∀ it ∈ items, 0 < it.score ∧
    ∃ job ∈ jobs, it.jobId = job.id ∧ it.score = computeMatchScore job preferences

/-- C5: with non-empty preferences and no snapshot for today's key, digest
generation computes, sorts, truncates to 10 and persists as described. -/
theorem generateDigest_fresh (jobs : List Job) (preferences : Preferences)
    (hpref : hasPreferences preferences = true) :
    DigestFreshSpec jobs preferences := by
  simp only [DigestFreshSpec]
  have hitems :
      generateFreshItems jobs preferences =
        (((((jobs.map (fun job => (job, computeMatchScore job preferences))).filter
              (fun js => 0 < js.2)).mergeSort digestLe).take 10).map
          (fun js => ({ jobId := js.1.id, score := js.2 } : DigestItem))) := by
    simp only [generateFreshItems]
    by_cases h :
        ((jobs.map (fun job => (job, computeMatchScore job preferences))).filter
            (fun js => 0 < js.2)).length = 0
    · rw [if_pos h]
      rw [List.length_eq_zero.mp h]
      simp [List.mergeSort_nil]
    · rw [if_neg h]
  refine ⟨?_, hitems, ?_, ?_, ?_, ?_⟩
  · simp [generateDigest, hpref]
  · exact List.sorted_mergeSort digestLe_trans digestLe_total _
  · exact List.mergeSort_perm _ _
  · rw [hitems]
    simp only [List.length_map]
    have := List.length_take 10
      (((jobs.map (fun job => (job, computeMatchScore job preferences))).filter
          (fun js => 0 < js.2)).mergeSort digestLe)
    omega
  · intro it hit
    rw [hitems] at hit
    obtain ⟨js, hjs, rfl⟩ := List.mem_map.mp hit
    have hjs' := List.mem_of_mem_take hjs
    have hmem := (List.mergeSort_perm _ digestLe).mem_iff.mp hjs'
    obtain ⟨hmemmap, hpos⟩ := List.mem_filter.mp hmem
    obtain ⟨job, hjob, hjseq⟩ := List.mem_map.mp hmemmap
    refine ⟨?_, job, hjob, ?_, ?_⟩
    · simpa using hpos
    · rw [← hjseq]
    · rw [← hjseq]

/-- Witness for C5 at a concrete catalog and preferences. -/
theorem generateDigest_fresh_witness :
    hasPreferences prefsReact = true ∧ DigestFreshSpec [jobReact] prefsReact :=
  ⟨by decide, generateDigest_fresh [jobReact] prefsReact (by decide)⟩

/-- C6: digest generation is idempotent for the day — with a snapshot
already stored under today's key, generate returns it unchanged without
overwriting, for any (possibly changed) non-empty preferences; and a second
generate call over the store left by a first call reproduces the first
call's result exactly. -/
theorem generateDigest_idempotent (p q : Preferences) (jobs : List Job)
    (s : List DigestItem) (st : Option (List DigestItem))
    (hp : hasPreferences p = true) (hq : hasPreferences q = true) :
    generateDigest p jobs (some s) = (some s, some s) ∧
    generateDigest q jobs (generateDigest p jobs st).2 = generateDigest p jobs st := by
  constructor
  · simp [generateDigest, hp]
  · cases st with
    | some items => simp [generateDigest, hp, hq]
    | none => simp [generateDigest, hp, hq]

/-- Preferences differing from `prefsReact`, for the changed-preferences
side of the idempotence witness. -/
def prefsJava : Preferences :=
  { roleKeywords := "java".data
    preferredLocations := []
    preferredModes := []
    experienceLevel := []
    skills := "spring".data
    minMatchScore := 60 }

/-- Witness for C6 at concrete preferences, catalog, snapshot and store. -/
theorem generateDigest_idempotent_witness :
    (hasPreferences prefsReact = true ∧ hasPreferences prefsJava = true) ∧
    (generateDigest prefsReact [jobReact] (some [{ jobId := 1, score := 50 }]) =
        (some [{ jobId := 1, score := 50 }], some [{ jobId := 1, score := 50 }]) ∧
      generateDigest prefsJava [jobReact] (generateDigest prefsReact [jobReact] none).2 =
        generateDigest prefsReact [jobReact] none) :=
  ⟨⟨by decide, by decide⟩,
    generateDigest_idempotent prefsReact prefsJava [jobReact]
      [{ jobId := 1, score := 50 }] none (by decide) (by decide)⟩

/-- C7: when every catalog job scores 0, generation persists the empty
snapshot and exposes it (the Empty state), which differs from an absent
snapshot (the Uninitialized state). -/
theorem generateDigest_empty (p : Preferences) (jobs : List Job)
    (hp : hasPreferences p = true)
    (hall : ∀ j ∈ jobs, computeMatchScore j p = 0) :
    generateDigest p jobs none = (some [], some []) ∧
    (some ([] : List DigestItem) ≠ (none : Option (List DigestItem))) := by
  have hmatch :
      (jobs.map (fun job => (job, computeMatchScore job p))).filter
          (fun js => 0 < js.2) = [] := by
    rw [List.filter_eq_nil_iff]
    intro a ha
    obtain ⟨j, hj, rfl⟩ := List.mem_map.mp ha
    simp [hall j hj]
  have hfresh : generateFreshItems jobs p = [] := by
    simp only [generateFreshItems, hmatch]
    simp
  constructor
  · simp [generateDigest, hp, hfresh]
  · simp

/-- A job that scores 0 against `prefsJava`: stale, not from LinkedIn, and
matching no keyword, skill, location, mode or experience preference. -/
def jobStale : Job :=
  { id := 2
    title := "Data Entry Clerk".data
    company := "Paperwork Inc".data
    location := "Pune".data
    mode := "Onsite".data
    experience := "Fresher".data
    salaryRange := "8k".data
    source := "Naukri".data
    skills := ["Excel".data]
    description := "Routine form processing.".data
    postedDaysAgo := 10
    applyUrl := "https://example.com/stale".data }

/-- Witness for C7: a catalog whose only job scores 0 under non-empty
preferences. -/
theorem generateDigest_empty_witness :
    (hasPreferences prefsJava = true ∧
      (∀ j ∈ [jobStale], computeMatchScore j prefsJava = 0)) ∧
    (generateDigest prefsJava [jobStale] none = (some [], some []) ∧
      (some ([] : List DigestItem) ≠ (none : Option (List DigestItem)))) :=
  ⟨⟨by decide, by decide⟩,
    generateDigest_empty prefsJava [jobStale] (by decide) (by decide)⟩

/-- `handleSaveJob` from App.tsx lines 1238-1245, returning the saved list
afterwards and the record written to storage (`none` when nothing is
written). -/
def handleSaveJob (prev : List Nat) (id : Nat) : List Nat × Option (List Nat) :=
  if prev.contains id then (prev, none)
  else (prev ++ [id], some (prev ++ [id]))

/-- C10: saving an already saved id changes nothing and writes nothing;
saving a new id appends exactly that one id and persists the new list; hence
saving preserves distinctness of the saved identifiers. -/
theorem handleSaveJob_distinct (prev : List Nat) (id : Nat) :
    (id ∈ prev → handleSaveJob prev id = (prev, none)) ∧
    (id ∉ prev → handleSaveJob prev id = (prev ++ [id], some (prev ++ [id]))) ∧
    (prev.Nodup → (handleSaveJob prev id).1.Nodup) := by
  refine ⟨fun h => ?_, fun h => ?_, fun h => ?_⟩
  · simp [handleSaveJob, h]
  · simp [handleSaveJob, h]
  · by_cases hmem : id ∈ prev
    · simp [handleSaveJob, hmem, h]
    · simp [handleSaveJob, hmem, h, List.nodup_append]

/-- Witness for C10: re-saving id 2 is a no-op, saving fresh id 3 appends
it once and persists, and distinctness is preserved. -/
theorem handleSaveJob_distinct_witness :
    (2 ∈ [1, 2] ∧ handleSaveJob [1, 2] 2 = ([1, 2], none)) ∧
    (3 ∉ [1, 2] ∧ handleSaveJob [1, 2] 3 = ([1, 2] ++ [3], some ([1, 2] ++ [3]))) ∧
    (([1, 2] : List Nat).Nodup ∧ (handleSaveJob [1, 2] 3).1.Nodup) :=
  ⟨⟨by decide, (handleSaveJob_distinct [1, 2] 2).1 (by decide)⟩,
    ⟨by decide, (handleSaveJob_distinct [1, 2] 3).2.1 (by decide)⟩,
    ⟨by decide, (handleSaveJob_distinct [1, 2] 3).2.2 (by decide)⟩⟩

/-- C3: the spec's salary-extraction instances hold, and a text whose
characters are all non-digits extracts to 0. -/
theorem extractSalaryValue_spec :
    extractSalaryValue ("12k".data) = 12000 ∧
    extractSalaryValue ("10 LPA".data) = 1000000 ∧
    extractSalaryValue ("no digits".data) = 0 ∧
    (∀ s : Str, (∀ c ∈ s, c.isDigit = false) → extractSalaryValue s = 0) := by
  refine ⟨by decide, by decide, by decide, fun s h => ?_⟩
  have hdrop : s.dropWhile (fun c => !c.isDigit) = [] := by
    rw [List.dropWhile_eq_nil_iff]
    intro c hc
    simp [h c hc]
  simp [extractSalaryValue, hdrop]

/-- Witness for C3's digit-free clause at a fresh concrete text. -/
theorem extractSalaryValue_spec_witness :
    (∀ c ∈ "Salary TBD".data, c.isDigit = false) ∧
    extractSalaryValue ("Salary TBD".data) = 0 :=
  ⟨by decide, extractSalaryValue_spec.2.2.2 ("Salary TBD".data) (by decide)⟩
